import Mathlib

/-!
Verification of the interactive photography kiosk (`src/src/App.jsx`).

The file shallowly embeds the visitor-interaction state machine of the app:
the React component state (`personDetected`, `step`, `showButton`,
`isInteracting`), the detection-loop locals (`lastDetection`), the speech
synthesis queue (`window.speechSynthesis`), and the recognition sessions
created through `recognitionRef`.  React `setState` calls are modelled as
direct field updates on a single state record, following the single-threaded
event-loop model: detection ticks, utterance-end callbacks, recognition
results/errors and capture clicks are the events; each event handler runs to
completion before the next event is processed.

A JavaScript exception thrown inside a handler (the app throws when
`window.speechSynthesis` is absent, since `speak` dereferences it
unconditionally) aborts the rest of that handler but keeps the state
mutations already performed; this is modelled by `speakOpt` returning `none`
and the caller keeping the partially updated state.
-/

/-- `DETECTION_INTERVAL` (App.jsx line 7), in milliseconds. -/
def DETECTION_INTERVAL : Nat := 500

/-- The `step` React state: `"idle" | "waiting" | "decision" | "end"`
(App.jsx line 15).  `endStep` stands for the string `"end"` (a Lean
keyword). -/
inductive Step where
  | idle
  | waiting
  | decision
  | endStep
  deriving DecidableEq

/-- The completion continuations passed to `speak` in the app: the greeting's
callback starts speech recognition (App.jsx lines 90-94), and the farewell
callback is `resumeDetection` (lines 126 and 134).  The capture-instruction
utterance has no callback (`none`). -/
inductive SpeechCallback where
  | startListening
  | resumeAfterFarewell
  deriving DecidableEq

/-- A queued `SpeechSynthesisUtterance`: its text and its `onend` handler. -/
structure Utterance where
  text : String
  onEnd : Option SpeechCallback
  deriving DecidableEq

/-- Status of a `SpeechRecognition` object created by
`setupSpeechRecognition`: `listening` after `.start()`, `stopped` after the
single-shot result/error is delivered or after `.abort()`. -/
inductive RecSess where
  | listening
  | stopped
  deriving DecidableEq

/-- Availability of the external browser services: camera frame source
(`videoRef.current`), the loaded blazeface `model`, `window.speechSynthesis`
and `window.SpeechRecognition`. -/
structure Env where
  videoOk : Bool
  modelOk : Bool
  synthAvailable : Bool
  recAvailable : Bool
  deriving DecidableEq

/-- The machine state: the four React `useState` cells of App.jsx
(lines 14-17), the detection-loop local `lastDetection` (line 47), the
recognition sessions ever created via `recognitionRef` (newest first; the
head is the session `recognitionRef.current` points at), the speech
synthesis queue, and whether `handleCapture` has drawn a frame snapshot to
the canvas (line 132). -/
structure AppState where
  personDetected : Bool
  step : Step
  showButton : Bool
  isInteracting : Bool
  lastDetection : Nat
  recSessions : List RecSess
  synthQueue : List Utterance
  snapshotTaken : Bool
  deriving DecidableEq

/-- Greeting text spoken on detection (App.jsx line 90). -/
def greetingText : String := "Welcome to our photography. Would you like to take a photo?"

/-- Capture instructions spoken on an affirmative reply (App.jsx line 122). -/
def captureInstructionsText : String := "Tap or click the button below in the tab to take a photo."

/-- Thanks spoken on a non-affirmative reply (App.jsx line 126). -/
def thanksText : String := "Thank you for visiting."

/-- Thanks spoken after a photo is captured (App.jsx line 134). -/
def thanksCaptureText : String := "Thank you. Thank you for visiting."

/-- ASCII lower-casing of one character, the fragment of JavaScript
`String.prototype.toLowerCase` exercised by the app (transcripts are
ASCII). -/
def jsLowerChar (c : Char) : Char :=
  if 65 ≤ c.toNat ∧ c.toNat ≤ 90 then Char.ofNat (c.toNat + 32) else c

/-- JavaScript `transcript.toLowerCase()` (App.jsx line 118). -/
def jsToLower (s : String) : String := String.mk (s.data.map jsLowerChar)

/-- Auxiliary for `includes`: does `pat` occur at the front of `l`. -/
def isPrefixChars : List Char → List Char → Bool
  | [], _ => true
  | _ :: _, [] => false
  | a :: pats, b :: rest => a == b && isPrefixChars pats rest

/-- Auxiliary for `includes`: does `pat` occur anywhere in the list. -/
def includesChars (pat : List Char) : List Char → Bool
  | [] => isPrefixChars pat []
  | c :: rest => isPrefixChars pat (c :: rest) || includesChars pat rest

/-- JavaScript `s.includes(pat)`: substring containment (App.jsx
line 119). -/
def includes (s pat : String) : Bool := includesChars pat.data s.data

/-- `window.speechSynthesis.cancel()` (App.jsx line 32): drops every queued
or in-progress utterance. -/
def synthCancel (_q : List Utterance) : List Utterance := []

/-- `window.speechSynthesis.speak(utter)` (App.jsx line 40): enqueues the
utterance. -/
def synthSpeak (u : Utterance) (q : List Utterance) : List Utterance := q ++ [u]

/-- `speak(text, callback)` (App.jsx lines 31-41): cancel any speech in
progress, then enqueue the new utterance whose `onend` handler is the
callback.  When `window.speechSynthesis` is absent the very first statement
`window.speechSynthesis.cancel()` throws, so nothing happens and no
continuation is registered: modelled by `none`. -/
def speakOpt (env : Env) (text : String) (cb : Option SpeechCallback) (s : AppState) :
    Option AppState :=
  if env.synthAvailable then
    some { s with synthQueue := synthSpeak ⟨text, cb⟩ (synthCancel s.synthQueue) }
  else
    none

/-- One run of `detectPerson` (App.jsx lines 62-102) as the line-64 check is
WRITTEN: the `if (isInteracting)` guard is embedded as reading the current
machine state.  Returns the new state and whether `model.estimateFaces`
(the Face Locator) was invoked on this tick.  `now` is `Date.now()`;
`faces` is whether the locator would report a nonempty prediction list.  If
`isInteracting` is set the handler re-arms and returns immediately
(lines 64-68); otherwise the locator runs only when the video and model are
ready and more than `DETECTION_INTERVAL` ms passed since the last locator
call (line 69).  On detection the handler sets `personDetected`, pauses
detection, hides the button, moves `step` to `"waiting"` and speaks the
greeting whose callback starts recognition (lines 76-94); otherwise it
clears the flags (lines 95-99).

Caveat: at runtime the guard does NOT behave this way — the loop is created
once inside the mount effect whose dependency array is `[]` (App.jsx
line 114, exhaustive-deps lint suppressed at line 113), so its closure
captures the first render's `isInteracting = false` forever and the pause
branch is dead code; `detectTickStale` below models the loop as it actually
executes.  The theorems stated over `detectTick` rely only on behavior the
two versions share (the throttle, the call-then-re-arm structure, what the
detection branch writes), not on the pause taking effect. -/
def detectTick (env : Env) (s : AppState) (now : Nat) (faces : Bool) : AppState × Bool :=
  if s.isInteracting then
    (s, false)
  else if env.videoOk && env.modelOk && decide (DETECTION_INTERVAL < now - s.lastDetection) then
    let s1 := { s with lastDetection := now }
    if faces then
      let s2 := { s1 with personDetected := true, isInteracting := true,
                          showButton := false, step := Step.waiting }
      ((speakOpt env greetingText (some SpeechCallback.startListening) s2).getD s2, true)
    else
      ({ s1 with personDetected := false, showButton := false, step := Step.idle }, true)
  else
    (s, false)

/-- The `isInteracting` value the running detection loop actually sees:
`detectPerson` is defined inside the mount effect with dependency array
`[]` (App.jsx line 114), so its closure captures the first render's
`isInteracting` const — `false` — permanently.  `setIsInteracting(true)`
(line 78) creates a new binding in later renders that the already-running
loop never observes. -/
def staleInteracting : Bool := false

/-- `detectPerson` as it actually executes at runtime: identical to
`detectTick` except that the line-64 guard reads the frozen closure value
`staleInteracting` instead of the current machine state, so the pause never
takes effect and the locator keeps being invoked during conversations.
(The `src/unnamed/part_001` variant at lines 264-325 repairs this by
putting `[mode]` in the effect dependencies so the loop is re-created with
a fresh closure on every state change.) -/
def detectTickStale (env : Env) (s : AppState) (now : Nat) (faces : Bool) :
    AppState × Bool :=
  if staleInteracting then
    (s, false)
  else if env.videoOk && env.modelOk && decide (DETECTION_INTERVAL < now - s.lastDetection) then
    let s1 := { s with lastDetection := now }
    if faces then
      let s2 := { s1 with personDetected := true, isInteracting := true,
                          showButton := false, step := Step.waiting }
      ((speakOpt env greetingText (some SpeechCallback.startListening) s2).getD s2, true)
    else
      ({ s1 with personDetected := false, showButton := false, step := Step.idle }, true)
  else
    (s, false)

/-- `handleSpeechResult` (App.jsx lines 117-128): lower-case the transcript;
if it contains `"yes"` show the button, move to `"decision"` and speak the
capture instructions (no callback); otherwise hide the button, move to
`"end"` and speak the thanks with `resumeDetection` as completion
callback. -/
def handleSpeechResult (env : Env) (transcript : String) (s : AppState) : AppState :=
  let t := jsToLower transcript
  if includes t "yes" then
    let s1 := { s with showButton := true, step := Step.decision }
    (speakOpt env captureInstructionsText none s1).getD s1
  else
    let s1 := { s with showButton := false, step := Step.endStep }
    (speakOpt env thanksText (some SpeechCallback.resumeAfterFarewell) s1).getD s1

/-- `handleCapture` (App.jsx lines 130-138): unconditionally draw the video
frame to the canvas (the snapshot), then — in a `setTimeout` callback that
always fires — speak the capture thanks with `resumeDetection` as callback,
hide the button and move to `"end"`.  If `speak` throws (no synthesis), the
rest of the timeout callback is skipped. -/
def handleCapture (env : Env) (s : AppState) : AppState :=
  let s1 := { s with snapshotTaken := true }
  match speakOpt env thanksCaptureText (some SpeechCallback.resumeAfterFarewell) s1 with
  | some s2 => { s2 with showButton := false, step := Step.endStep }
  | none => s1

/-- `recognitionRef.current.abort()` on the currently referenced session
(App.jsx line 91). -/
def abortHead : List RecSess → List RecSess
  | [] => []
  | _ :: rest => RecSess.stopped :: rest

/-- Whether the head of a session list is a listening session. -/
def headListeningL : List RecSess → Bool
  | RecSess.listening :: _ => true
  | _ => false

/-- Whether the session `recognitionRef.current` refers to is currently
listening. -/
def headListening (s : AppState) : Bool := headListeningL s.recSessions

/-- `resumeDetection` (App.jsx lines 141-146). -/
def resumeDetection (s : AppState) : AppState :=
  { s with isInteracting := false, personDetected := false,
           showButton := false, step := Step.idle }

/-- Run an utterance's `onend` handler.  The greeting callback (App.jsx
lines 90-94) aborts any prior recognition session, builds a fresh one via
`setupSpeechRecognition(handleSpeechResult, null)` — which returns `null`
when the SpeechRecognition API is unsupported (lines 19-29) — and starts it
if non-null.  The farewell callback is `resumeDetection`. -/
def runOnEnd (env : Env) : Option SpeechCallback → AppState → AppState
  | none, s => s
  | some SpeechCallback.startListening, s =>
      let s1 := { s with recSessions := abortHead s.recSessions }
      if env.recAvailable then
        { s1 with recSessions := RecSess.listening :: s1.recSessions }
      else
        s1
  | some SpeechCallback.resumeAfterFarewell, s => resumeDetection s

/-- The events serialized onto the app's event loop. -/
inductive Event where
  | tick (now : Nat) (faces : Bool)
  | utteranceEnd
  | recResult (transcript : String)
  | recError
  | captureClick

/-- One event-loop step.  `none` means the event cannot occur in this state:
an utterance can end only if one is queued, a recognition result or error is
delivered only to a listening session (the session then stops, the API being
single-shot with `continuous = false`), and the capture button can be
clicked only while it is rendered (`showButton`, App.jsx line 209).  A
recognition error runs no handler because App.jsx line 92 wires `onerror` to
`null`. -/
def stepEv (env : Env) (s : AppState) : Event → Option AppState
  | Event.tick now faces => some (detectTick env s now faces).1
  | Event.utteranceEnd =>
      match s.synthQueue with
      | [] => none
      | u :: rest => some (runOnEnd env u.onEnd { s with synthQueue := rest })
  | Event.recResult transcript =>
      match s.recSessions with
      | RecSess.listening :: rest =>
          some (handleSpeechResult env transcript
                  { s with recSessions := RecSess.stopped :: rest })
      | _ => none
  | Event.recError =>
      match s.recSessions with
      | RecSess.listening :: rest =>
          some { s with recSessions := RecSess.stopped :: rest }
      | _ => none
  | Event.captureClick =>
      if s.showButton then some (handleCapture env s) else none

/-- The initial state on mount (App.jsx lines 14-17, 47). -/
def initState : AppState :=
  { personDetected := false, step := Step.idle, showButton := false,
    isInteracting := false, lastDetection := 0, recSessions := [],
    synthQueue := [], snapshotTaken := false }

/-- States reachable from the initial state through event-loop steps. -/
inductive Reachable (env : Env) : AppState → Prop where
  | init : Reachable env initState
  | step {s s' : AppState} {e : Event} :
      Reachable env s → stepEv env s e = some s' → Reachable env s'

/-- The browser environment the spec assumes: camera, model, synthesis and
recognition all available. -/
def stdEnv : Env :=
  { videoOk := true, modelOk := true, synthAvailable := true, recAvailable := true }

/-- A state in which the machine is listening for the visitor's reply: the
greeting has been spoken (detection happened at t = 501) and its completion
callback has started a recognition session. -/
def listeningState : AppState :=
  { personDetected := true, step := Step.waiting, showButton := false,
    isInteracting := true, lastDetection := 501, recSessions := [RecSess.listening],
    synthQueue := [], snapshotTaken := false }

/-- A state in which the farewell thanks is being spoken: the visitor
declined, the recognition session has stopped, and the thanks utterance with
the `resumeDetection` completion callback is queued. -/
def farewellState : AppState :=
  { personDetected := true, step := Step.endStep, showButton := false,
    isInteracting := true, lastDetection := 501, recSessions := [RecSess.stopped],
    synthQueue := [⟨thanksText, some SpeechCallback.resumeAfterFarewell⟩],
    snapshotTaken := false }

/-- A browser without `window.speechSynthesis` (speech output unsupported);
everything else available. -/
def noSynthEnv : Env :=
  { videoOk := true, modelOk := true, synthAvailable := false, recAvailable := true }

/-- The state reached when a person is detected in `noSynthEnv`: `speak`
threw before registering any completion continuation, so detection is paused
and no utterance is queued. -/
def stuckState : AppState :=
  { personDetected := true, step := Step.waiting, showButton := false,
    isInteracting := true, lastDetection := 501, recSessions := [],
    synthQueue := [], snapshotTaken := false }

/-- An action trace element for the Face Locator: `estimateFaces` call start
and completion (the `await` on line 72 resolving). -/
inductive Act where
  | callStart (t : Nat)
  | callEnd (t : Nat)

/-- The detection loop over a list of animation-frame ticks, each a
`(Date.now(), faces present)` pair.  Because `detectPerson` is `async` and
re-arms the next frame only after its `await model.estimateFaces` resolves
(App.jsx line 101 runs after line 72), every locator call starts and ends
within its own tick: each tick contributes either nothing or a
`callStart`/`callEnd` pair to the action trace.  Returns the final state,
the timestamps at which the locator was invoked, and the action trace. -/
def runDetect (env : Env) : AppState → List (Nat × Bool) → AppState × List Nat × List Act
  | s, [] => (s, [], [])
  | s, (now, faces) :: rest =>
      let r := detectTick env s now faces
      let tailRun := runDetect env r.1 rest
      (tailRun.1,
       (if r.2 then [now] else []) ++ tailRun.2.1,
       (if r.2 then [Act.callStart now, Act.callEnd now] else []) ++ tailRun.2.2)

/-- Effect of an action on the number of locator calls in flight. -/
def applyAct : Act → Nat → Nat
  | Act.callStart _, n => n + 1
  | Act.callEnd _, n => n - 1

/-- Largest in-flight count observed along an action trace started with `n`
calls in flight. -/
def maxInFlight : Nat → List Act → Nat
  | n, [] => n
  | n, a :: rest => max n (maxInFlight (applyAct a n) rest)

/-- Every recognition session other than the referenced one (the head) has
been stopped. -/
def tailStopped (l : List RecSess) : Prop :=
  ∀ r ∈ l.drop 1, r = RecSess.stopped

/-- Which `step` the machine is in while each kind of utterance is queued:
the greeting (callback `startListening`) is spoken in `"waiting"`, the
capture instructions (no callback) in `"decision"`, the farewells (callback
`resumeDetection`) in `"end"`. -/
def queueStepOk (s : AppState) : Prop :=
  ∀ u ∈ s.synthQueue,
    (u.onEnd = some SpeechCallback.startListening → s.step = Step.waiting) ∧
    (u.onEnd = none → s.step = Step.decision) ∧
    (u.onEnd = some SpeechCallback.resumeAfterFarewell → s.step = Step.endStep)

/-- The inductive invariant of the machine: the pause flag is down exactly
in `"idle"`, the capture button is shown exactly in `"decision"`, speech can
be queued and recognition can be listening only while a conversation is in
flight, at most one utterance is queued, no speech is queued while
recognition listens, every non-referenced session is stopped, and queued
utterances match the step. -/
def MachineInv (s : AppState) : Prop :=
  (s.isInteracting = false ↔ s.step = Step.idle) ∧
  (s.showButton = true ↔ s.step = Step.decision) ∧
  (s.synthQueue ≠ [] → s.isInteracting = true) ∧
  (headListening s = true → s.step = Step.waiting) ∧
  s.synthQueue.length ≤ 1 ∧
  tailStopped s.recSessions ∧
  (s.synthQueue ≠ [] → headListening s = false) ∧
  queueStepOk s

theorem machineInv_initState : MachineInv initState := by
  refine ⟨by decide, by decide, by simp [initState], ?_, by decide, ?_, ?_, ?_⟩ <;>
    simp [initState, headListening, headListeningL, tailStopped, queueStepOk]

theorem machineInv_detectTick (env : Env) (s : AppState) (now : Nat) (faces : Bool)
    (h : MachineInv s) : MachineInv (detectTick env s now faces).1 := by
  obtain ⟨h1, h2, h3, h4, h5, h6, h7, h8⟩ := h
  unfold detectTick
  split
  · exact ⟨h1, h2, h3, h4, h5, h6, h7, h8⟩
  · next hInt =>
    have hInt' : s.isInteracting = false := by
      cases hi : s.isInteracting
      · rfl
      · exact absurd hi hInt
    have hIdle : s.step = Step.idle := h1.mp hInt'
    have hQ : s.synthQueue = [] := by
      by_contra hne
      exact absurd (h3 hne) (by simp [hInt'])
    have hHL : headListening s = false := by
      cases hl : headListening s
      · rfl
      · exact absurd (h4 hl) (by simp [hIdle])
    split
    · split
      · unfold speakOpt
        split
        · refine ⟨by simp, by simp [h2, hIdle], by simp, ?_, by simp [synthSpeak, synthCancel], ?_, ?_, ?_⟩
          · intro _; simp
          · simpa [tailStopped] using h6
          · intro _; exact (show headListening s = false from hHL)
          · intro u hu
            simp [synthSpeak, synthCancel] at hu
            subst hu
            refine ⟨fun _ => by simp, by simp, by simp⟩
        · refine ⟨by simp, by simp [h2, hIdle], ?_, ?_, by simp [hQ], ?_, ?_, ?_⟩
          · intro _; simp
          · intro _; simp
          · simpa [tailStopped] using h6
          · intro hne; exact absurd hQ (by simpa using hne)
          · intro u hu; exact absurd hQ (by simp_all)
      · refine ⟨by simp [hInt'], by simp [h2, hIdle], ?_, ?_, by simp [hQ], ?_, ?_, ?_⟩
        · intro hne; exact absurd hQ (by simpa using hne)
        · intro hl
          exact absurd (h4 (show headListening s = true from hl)) (by simp [hIdle])
        · simpa [tailStopped] using h6
        · intro hne; exact absurd hQ (by simpa using hne)
        · intro u hu; exact absurd hQ (by simp_all)
    · exact ⟨h1, h2, h3, h4, h5, h6, h7, h8⟩

theorem tailStopped_abortHead {l : List RecSess} (h : tailStopped l) :
    ∀ r ∈ abortHead l, r = RecSess.stopped := by
  cases l with
  | nil => simp [abortHead]
  | cons x t =>
    intro r hr
    simp [abortHead] at hr
    rcases hr with hr | hr
    · exact hr
    · exact h r (by simpa [tailStopped] using hr)

theorem headListeningL_allStopped {l : List RecSess}
    (h : ∀ r ∈ l, r = RecSess.stopped) : headListeningL l = false := by
  cases l with
  | nil => rfl
  | cons x t =>
    have hx := h x (List.mem_cons_self x t)
    subst hx
    rfl

theorem allStopped_of_notListening {s : AppState} (h6 : tailStopped s.recSessions)
    (hHL : headListening s = false) : ∀ r ∈ s.recSessions, r = RecSess.stopped := by
  unfold headListening at hHL
  intro r hr
  cases hsess : s.recSessions with
  | nil => rw [hsess] at hr; simp at hr
  | cons x t =>
    rw [hsess] at hr hHL
    rcases List.mem_cons.mp hr with h | h
    · cases x with
      | listening => simp [headListeningL] at hHL
      | stopped => exact h
    · exact h6 r (by rw [hsess]; simpa using h)

theorem abortHead_allStopped {l : List RecSess} (h : ∀ r ∈ l, r = RecSess.stopped) :
    ∀ r ∈ abortHead l, r = RecSess.stopped := by
  cases l with
  | nil => simp [abortHead]
  | cons x t =>
    intro r hr
    simp only [abortHead, List.mem_cons] at hr
    rcases hr with hr | hr
    · exact hr
    · exact h r (List.mem_cons_of_mem _ hr)

theorem machineInv_runOnEnd (env : Env) (s : AppState) (u : Utterance)
    (rest : List Utterance) (h : MachineInv s) (hq : s.synthQueue = u :: rest) :
    MachineInv (runOnEnd env u.onEnd { s with synthQueue := rest }) := by
  obtain ⟨h1, h2, h3, h4, h5, h6, h7, h8⟩ := h
  have hrest : rest = [] := by
    rw [hq] at h5; simpa using h5
  subst hrest
  have hInt : s.isInteracting = true := h3 (by rw [hq]; simp)
  have hHL : headListening s = false := h7 (by rw [hq]; simp)
  have hAll : ∀ r ∈ s.recSessions, r = RecSess.stopped := allStopped_of_notListening h6 hHL
  have h8u := h8 u (by rw [hq]; simp)
  cases hcb : u.onEnd with
  | none =>
    have hstep : s.step = Step.decision := h8u.2.1 hcb
    simp only [runOnEnd]
    refine ⟨by simp [hInt, hstep], by simpa using h2, by simp, ?_, by simp, ?_, by simp, ?_⟩
    · intro hl
      exact absurd (show headListening s = true from hl) (by simp [hHL])
    · simpa [tailStopped] using h6
    · intro v hv; simp at hv
  | some cb =>
    cases cb with
    | startListening =>
      have hstep : s.step = Step.waiting := h8u.1 hcb
      simp only [runOnEnd]
      split
      · refine ⟨by simp [hInt, hstep], by simpa [hstep] using h2, by simp, ?_,
          by simp, ?_, by simp, ?_⟩
        · intro _; simp [hstep]
        · intro r hr
          exact abortHead_allStopped hAll r hr
        · intro v hv; simp at hv
      · refine ⟨by simp [hInt, hstep], by simpa [hstep] using h2, by simp, ?_,
          by simp, ?_, by simp, ?_⟩
        · intro hl
          have hfalse := headListeningL_allStopped (abortHead_allStopped hAll)
          exact absurd (show headListeningL (abortHead s.recSessions) = true from hl)
            (by simp [hfalse])
        · intro r hr
          exact abortHead_allStopped hAll r (List.mem_of_mem_drop hr)
        · intro v hv; simp at hv
    | resumeAfterFarewell =>
      simp only [runOnEnd, resumeDetection]
      refine ⟨by simp, by simp, by simp, ?_, by simp, ?_, by simp, ?_⟩
      · intro hl
        exact absurd (show headListening s = true from hl) (by simp [hHL])
      · simpa [tailStopped] using h6
      · intro v hv; simp at hv

theorem machineInv_recResult (env : Env) (s : AppState) (transcript : String)
    (rest : List RecSess) (h : MachineInv s)
    (hsess : s.recSessions = RecSess.listening :: rest) :
    MachineInv (handleSpeechResult env transcript
      { s with recSessions := RecSess.stopped :: rest }) := by
  obtain ⟨h1, h2, h3, h4, h5, h6, h7, h8⟩ := h
  have hHL : headListening s = true := by simp [headListening, headListeningL, hsess]
  have hstep : s.step = Step.waiting := h4 hHL
  have hInt : s.isInteracting = true := by
    cases hi : s.isInteracting
    · exact absurd (h1.mp hi) (by simp [hstep])
    · rfl
  have hQ : s.synthQueue = [] := by
    by_contra hne
    exact absurd (h7 hne) (by simp [hHL])
  have hTail : ∀ r ∈ rest, r = RecSess.stopped := by
    intro r hr
    exact h6 r (by simp [tailStopped, hsess, hr])
  simp only [handleSpeechResult]
  split
  · unfold speakOpt
    split
    · refine ⟨by simp [hInt], by simp, by simp [hInt], ?_,
        by simp [synthSpeak, synthCancel], ?_, ?_, ?_⟩
      · intro hl; simp [headListening, headListeningL] at hl
      · simpa [tailStopped] using hTail
      · intro _; simp [headListening, headListeningL]
      · intro v hv
        simp [synthSpeak, synthCancel] at hv
        subst hv
        exact ⟨by simp, fun _ => by simp, by simp⟩
    · refine ⟨by simp [hInt], by simp, ?_, ?_, by simp [hQ], ?_, ?_, ?_⟩
      · intro hne; exact absurd hQ (by simpa using hne)
      · intro hl; simp [headListening, headListeningL] at hl
      · simpa [tailStopped] using hTail
      · intro hne; exact absurd hQ (by simpa using hne)
      · intro v hv; rw [hQ] at hv; simp at hv
  · unfold speakOpt
    split
    · refine ⟨by simp [hInt], by simp, by simp [hInt], ?_,
        by simp [synthSpeak, synthCancel], ?_, ?_, ?_⟩
      · intro hl; simp [headListening, headListeningL] at hl
      · simpa [tailStopped] using hTail
      · intro _; simp [headListening, headListeningL]
      · intro v hv
        simp [synthSpeak, synthCancel] at hv
        subst hv
        exact ⟨by simp, by simp, fun _ => by simp⟩
    · refine ⟨by simp [hInt], by simp, ?_, ?_, by simp [hQ], ?_, ?_, ?_⟩
      · intro hne; exact absurd hQ (by simpa using hne)
      · intro hl; simp [headListening, headListeningL] at hl
      · simpa [tailStopped] using hTail
      · intro hne; exact absurd hQ (by simpa using hne)
      · intro v hv; rw [hQ] at hv; simp at hv

theorem machineInv_recError (s : AppState) (rest : List RecSess)
    (h : MachineInv s) (hsess : s.recSessions = RecSess.listening :: rest) :
    MachineInv { s with recSessions := RecSess.stopped :: rest } := by
  obtain ⟨h1, h2, h3, h4, h5, h6, h7, h8⟩ := h
  have hHL : headListening s = true := by simp [headListening, headListeningL, hsess]
  have hQ : s.synthQueue = [] := by
    by_contra hne
    exact absurd (h7 hne) (by simp [hHL])
  have hTail : ∀ r ∈ rest, r = RecSess.stopped := by
    intro r hr
    exact h6 r (by simp [tailStopped, hsess, hr])
  refine ⟨by simpa using h1, by simpa using h2, ?_, ?_, by simpa using h5, ?_, ?_, ?_⟩
  · intro hne; exact absurd hQ (by simpa using hne)
  · intro hl; simp [headListening, headListeningL] at hl
  · simpa [tailStopped] using hTail
  · intro hne; exact absurd hQ (by simpa using hne)
  · intro v hv; rw [hQ] at hv; simp at hv

theorem machineInv_handleCapture (env : Env) (s : AppState) (h : MachineInv s)
    (hb : s.showButton = true) : MachineInv (handleCapture env s) := by
  obtain ⟨h1, h2, h3, h4, h5, h6, h7, h8⟩ := h
  have hstep : s.step = Step.decision := h2.mp hb
  have hInt : s.isInteracting = true := by
    cases hi : s.isInteracting
    · exact absurd (h1.mp hi) (by simp [hstep])
    · rfl
  have hHL : headListening s = false := by
    cases hl : headListening s
    · rfl
    · exact absurd (h4 hl) (by simp [hstep])
  unfold handleCapture speakOpt
  split
  · refine ⟨by simp [hInt], by simp, by simp [hInt], ?_,
      by simp [synthSpeak, synthCancel], ?_, ?_, ?_⟩
    · intro hl
      exact absurd (show headListening s = true from hl) (by simp [hHL])
    · simpa [tailStopped] using h6
    · intro _; exact (show headListening s = false from hHL)
    · intro v hv
      simp [synthSpeak, synthCancel] at hv
      subst hv
      exact ⟨by simp, by simp, fun _ => by simp⟩
  · refine ⟨by simp [hstep, hInt], by simpa using h2, ?_, ?_,
      by simpa using h5, ?_, ?_, ?_⟩
    · intro hne; exact h3 (by simpa using hne)
    · intro hl
      exact absurd (show headListening s = true from hl) (by simp [hHL])
    · simpa [tailStopped] using h6
    · intro hne
      exact (show headListening s = false from hHL)
    · intro v hv
      exact h8 v (by simpa using hv)

theorem machineInv_stepEv (env : Env) (s s' : AppState) (e : Event)
    (h : MachineInv s) (hstep : stepEv env s e = some s') : MachineInv s' := by
  cases e with
  | tick now faces =>
    simp only [stepEv, Option.some.injEq] at hstep
    subst hstep
    exact machineInv_detectTick env s now faces h
  | utteranceEnd =>
    simp only [stepEv] at hstep
    cases hq : s.synthQueue with
    | nil => rw [hq] at hstep; simp at hstep
    | cons u rest =>
      rw [hq] at hstep
      simp only [Option.some.injEq] at hstep
      subst hstep
      exact machineInv_runOnEnd env s u rest h hq
  | recResult transcript =>
    simp only [stepEv] at hstep
    cases hsess : s.recSessions with
    | nil => rw [hsess] at hstep; simp at hstep
    | cons x rest =>
      cases x with
      | listening =>
        rw [hsess] at hstep
        simp only [Option.some.injEq] at hstep
        subst hstep
        exact machineInv_recResult env s transcript rest h hsess
      | stopped => rw [hsess] at hstep; simp at hstep
  | recError =>
    simp only [stepEv] at hstep
    cases hsess : s.recSessions with
    | nil => rw [hsess] at hstep; simp at hstep
    | cons x rest =>
      cases x with
      | listening =>
        rw [hsess] at hstep
        simp only [Option.some.injEq] at hstep
        subst hstep
        exact machineInv_recError s rest h hsess
      | stopped => rw [hsess] at hstep; simp at hstep
  | captureClick =>
    simp only [stepEv] at hstep
    by_cases hb : s.showButton = true
    · rw [if_pos hb] at hstep
      simp only [Option.some.injEq] at hstep
      subst hstep
      exact machineInv_handleCapture env s h hb
    · rw [if_neg hb] at hstep
      simp at hstep

theorem reachable_machineInv {env : Env} {s : AppState} (h : Reachable env s) :
    MachineInv s := by
  induction h with
  | init => exact machineInv_initState
  | step hR hstep ih => exact machineInv_stepEv _ _ _ _ ih hstep

theorem detectTick_called_iff (env : Env) (s : AppState) (now : Nat) (faces : Bool) :
    (detectTick env s now faces).2 = true ↔
      s.isInteracting = false ∧ env.videoOk = true ∧ env.modelOk = true ∧
        DETECTION_INTERVAL < now - s.lastDetection := by
  unfold detectTick
  by_cases hInt : s.isInteracting = true
  · simp [hInt]
  · have hInt' : s.isInteracting = false := by
      cases h : s.isInteracting
      · rfl
      · exact absurd h hInt
    rw [if_neg hInt]
    by_cases hc : (env.videoOk && env.modelOk &&
        decide (DETECTION_INTERVAL < now - s.lastDetection)) = true
    · rw [if_pos hc]
      simp only [Bool.and_eq_true, decide_eq_true_eq] at hc
      cases faces
      · simp [hInt', hc.1.1, hc.1.2, hc.2]
      · simp [hInt', hc.1.1, hc.1.2, hc.2]
    · rw [if_neg hc]
      simp only [Bool.and_eq_true, decide_eq_true_eq] at hc
      constructor
      · intro h; simp at h
      · intro h
        exact absurd ⟨⟨h.2.1, h.2.2.1⟩, h.2.2.2⟩ hc

theorem detectTick_recSessions (env : Env) (s : AppState) (now : Nat) (faces : Bool) :
    (detectTick env s now faces).1.recSessions = s.recSessions := by
  unfold detectTick speakOpt
  repeat' split
  all_goals simp

theorem detectTick_gap (env : Env) (s : AppState) (now : Nat) (faces : Bool)
    (h : (detectTick env s now faces).2 = true) :
    DETECTION_INTERVAL < now - s.lastDetection :=
  ((detectTick_called_iff env s now faces).mp h).2.2.2

theorem detectTick_lastDetection_called (env : Env) (s : AppState) (now : Nat)
    (faces : Bool) (h : (detectTick env s now faces).2 = true) :
    (detectTick env s now faces).1.lastDetection = now := by
  obtain ⟨hInt, hv, hm, hgap⟩ := (detectTick_called_iff env s now faces).mp h
  unfold detectTick
  rw [if_neg (by simp [hInt]), if_pos (by simp [hv, hm, hgap])]
  cases faces
  · simp
  · by_cases hs : env.synthAvailable = true
    · simp [speakOpt, hs]
    · simp [speakOpt, hs]

theorem detectTick_lastDetection_notCalled (env : Env) (s : AppState) (now : Nat)
    (faces : Bool) (h : (detectTick env s now faces).2 = false) :
    (detectTick env s now faces).1.lastDetection = s.lastDetection := by
  unfold detectTick at h ⊢
  by_cases hInt : s.isInteracting = true
  · rw [if_pos hInt]
  · rw [if_neg hInt] at h ⊢
    by_cases hc : (env.videoOk && env.modelOk &&
        decide (DETECTION_INTERVAL < now - s.lastDetection)) = true
    · rw [if_pos hc] at h
      cases faces
      · simp at h
      · simp at h
    · rw [if_neg hc]

theorem runDetect_chain (env : Env) (L : List (Nat × Bool)) :
    ∀ s : AppState,
      List.Chain (fun a b => DETECTION_INTERVAL < b - a) s.lastDetection
        (runDetect env s L).2.1 := by
  induction L with
  | nil => intro s; exact List.Chain.nil
  | cons p rest ih =>
    intro s
    obtain ⟨now, faces⟩ := p
    simp only [runDetect]
    by_cases hc : (detectTick env s now faces).2 = true
    · rw [if_pos hc]
      simp only [List.cons_append, List.nil_append]
      refine List.Chain.cons (detectTick_gap env s now faces hc) ?_
      have h := ih (detectTick env s now faces).1
      rwa [detectTick_lastDetection_called env s now faces hc] at h
    · rw [if_neg hc]
      simp only [List.nil_append]
      have h := ih (detectTick env s now faces).1
      rwa [detectTick_lastDetection_notCalled env s now faces
        (Bool.eq_false_iff.mpr hc)] at h

theorem runDetect_maxInFlight (env : Env) (L : List (Nat × Bool)) :
    ∀ s : AppState, maxInFlight 0 (runDetect env s L).2.2 ≤ 1 := by
  induction L with
  | nil => intro s; simp [runDetect, maxInFlight]
  | cons p rest ih =>
    intro s
    obtain ⟨now, faces⟩ := p
    simp only [runDetect]
    by_cases hc : (detectTick env s now faces).2 = true
    · rw [if_pos hc]
      simp only [List.cons_append, List.nil_append, maxInFlight, applyAct]
      have h := ih (detectTick env s now faces).1
      refine Nat.max_le.mpr ⟨by omega, Nat.max_le.mpr ⟨le_refl 1, ?_⟩⟩
      simpa using h
    · rw [if_neg hc]
      simp only [List.nil_append]
      exact ih (detectTick env s now faces).1

theorem count_listening_eq_zero_of_allStopped {l : List RecSess}
    (h : ∀ r ∈ l, r = RecSess.stopped) : l.count RecSess.listening = 0 := by
  rw [List.count_eq_zero]
  intro hmem
  exact absurd (h _ hmem) (by decide)

theorem count_listening_le_one_of_tailStopped {l : List RecSess}
    (h : tailStopped l) : l.count RecSess.listening ≤ 1 := by
  cases l with
  | nil => simp
  | cons x t =>
    have ht : ∀ r ∈ t, r = RecSess.stopped := fun r hr =>
      h r (by simpa [tailStopped] using hr)
    rw [List.count_cons, count_listening_eq_zero_of_allStopped ht]
    split <;> simp

theorem handleSpeechResult_recSessions (env : Env) (transcript : String)
    (s : AppState) :
    (handleSpeechResult env transcript s).recSessions = s.recSessions := by
  simp only [handleSpeechResult]
  by_cases hy : includes (jsToLower transcript) "yes" = true <;>
    by_cases hs : env.synthAvailable = true <;>
      simp [hy, hs, speakOpt]

theorem handleCapture_recSessions (env : Env) (s : AppState) :
    (handleCapture env s).recSessions = s.recSessions := by
  simp only [handleCapture]
  by_cases hs : env.synthAvailable = true <;> simp [hs, speakOpt]

theorem detectTick_interacting (env : Env) (s : AppState) (now : Nat) (faces : Bool)
    (h : s.isInteracting = true) : (detectTick env s now faces).1 = s := by
  unfold detectTick
  rw [if_pos h]

/-- Claim C1 (the code violates it): the claim says a Face Locator call is
issued on a tick iff the VisitorState is Idle — in particular zero
`estimateFaces` calls while a conversation is in flight.  The pause check
as WRITTEN would block the call: `detectTick` (current-state read of
`isInteracting`) issues no call in the mid-conversation state.  But the
loop that actually runs is `detectTickStale`: its closure was created once
in the `[]`-deps mount effect (App.jsx lines 113-114) and captured the
first render's `isInteracting = false` forever, so at the failing input —
an eligible tick at t = 1002, face present, while the machine is Listening
(`listeningState`: step `"waiting"`, `isInteracting = true`) — the code
still invokes the Face Locator. -/
theorem c1_stale_pause_code_bug :
    listeningState.isInteracting = true ∧ listeningState.step = Step.waiting ∧
      (detectTickStale stdEnv listeningState 1002 true).2 = true ∧
      (detectTick stdEnv listeningState 1002 true).2 = false :=
  ⟨by decide, by decide, by decide, by decide⟩

/-- Claim C2: for every recognition result delivered in the Listening state
(a listening session is current) whose transcript lower-cased contains
"yes", the machine moves to AwaitingCapture (`step = "decision"`), shows the
capture button, and issues a Speech Output with the capture instructions. -/
theorem c2_affirmative_to_awaiting_capture (env : Env) (s : AppState)
    (transcript : String) (rest : List RecSess)
    (hsynth : env.synthAvailable = true)
    (hlisten : s.recSessions = RecSess.listening :: rest)
    (hyes : includes (jsToLower transcript) "yes" = true) :
    ∃ s', stepEv env s (Event.recResult transcript) = some s' ∧
      s'.step = Step.decision ∧ s'.showButton = true ∧
      s'.synthQueue = [⟨captureInstructionsText, none⟩] := by
  refine ⟨handleSpeechResult env transcript
      { s with recSessions := RecSess.stopped :: rest },
    by simp only [stepEv, hlisten], ?_, ?_, ?_⟩ <;>
    simp [handleSpeechResult, hyes, speakOpt, hsynth, synthSpeak, synthCancel]

/-- Witness for `c2_affirmative_to_awaiting_capture` on the transcript
"yes I would". -/
theorem c2_witness :
    ∃ s', stepEv stdEnv listeningState (Event.recResult "yes I would") = some s' ∧
      s'.step = Step.decision ∧ s'.showButton = true ∧
      s'.synthQueue = [⟨captureInstructionsText, none⟩] :=
  c2_affirmative_to_awaiting_capture stdEnv listeningState "yes I would" []
    (by decide) (by decide) (by decide)

/-- Claim C3 (the code violates its error leg): a non-affirmative transcript
in the Listening state does move the machine to Farewell (`step = "end"`)
with the button hidden and the thanks Speech Output issued, but a
recognition ERROR runs no handler at all — App.jsx line 92 wires `onerror`
to `null` — so on error the step, the pause flag, the button and the speech
queue are all unchanged and the machine never reaches Farewell. -/
theorem c3_negative_and_error_handling (env : Env) (s : AppState)
    (transcript : String) (rest : List RecSess)
    (hlisten : s.recSessions = RecSess.listening :: rest) :
    (env.synthAvailable = true → includes (jsToLower transcript) "yes" = false →
      ∃ s', stepEv env s (Event.recResult transcript) = some s' ∧
        s'.step = Step.endStep ∧ s'.showButton = false ∧
        s'.synthQueue = [⟨thanksText, some SpeechCallback.resumeAfterFarewell⟩]) ∧
    (∃ s', stepEv env s Event.recError = some s' ∧
      s'.step = s.step ∧ s'.isInteracting = s.isInteracting ∧
      s'.showButton = s.showButton ∧ s'.synthQueue = s.synthQueue ∧
      s'.snapshotTaken = s.snapshotTaken) := by
  constructor
  · intro hsynth hno
    refine ⟨handleSpeechResult env transcript
        { s with recSessions := RecSess.stopped :: rest },
      by simp only [stepEv, hlisten], ?_, ?_, ?_⟩ <;>
      simp [handleSpeechResult, hno, speakOpt, hsynth, synthSpeak, synthCancel]
  · exact ⟨{ s with recSessions := RecSess.stopped :: rest },
      by simp only [stepEv, hlisten], rfl, rfl, rfl, rfl, rfl⟩

/-- Witness for `c3_negative_and_error_handling` on "no thanks" and on the
error event. -/
theorem c3_witness :
    (∃ s', stepEv stdEnv listeningState (Event.recResult "no thanks") = some s' ∧
      s'.step = Step.endStep ∧ s'.showButton = false ∧
      s'.synthQueue = [⟨thanksText, some SpeechCallback.resumeAfterFarewell⟩]) ∧
    (∃ s', stepEv stdEnv listeningState Event.recError = some s' ∧
      s'.step = listeningState.step ∧
      s'.isInteracting = listeningState.isInteracting ∧
      s'.showButton = listeningState.showButton ∧
      s'.synthQueue = listeningState.synthQueue ∧
      s'.snapshotTaken = listeningState.snapshotTaken) :=
  ⟨(c3_negative_and_error_handling stdEnv listeningState "no thanks" []
      (by decide)).1 (by decide) (by decide),
   (c3_negative_and_error_handling stdEnv listeningState "no thanks" []
      (by decide)).2⟩

/-- Claim C4: in the Greeting state the Speech Input request is issued only
by the greeting utterance's end event, never synchronously by the `speak`
call.  (a) A detection tick — which issues the `speak` call — never changes
the recognition sessions; (b) when it fires, the greeting utterance carrying
the start-listening continuation is what gets queued; (c) the end event of
that utterance starts a recognition session; (d) no event other than an
utterance-end event can bring a listening session into existence. -/
theorem c4_listen_only_after_greeting_end (env : Env) :
    (∀ (s : AppState) (now : Nat) (faces : Bool),
        (detectTick env s now faces).1.recSessions = s.recSessions) ∧
    (∀ (s : AppState) (now : Nat), s.isInteracting = false →
        env.videoOk = true → env.modelOk = true → env.synthAvailable = true →
        DETECTION_INTERVAL < now - s.lastDetection →
        (detectTick env s now true).1.synthQueue =
          [⟨greetingText, some SpeechCallback.startListening⟩]) ∧
    (∀ (s : AppState) (rest : List Utterance), env.recAvailable = true →
        s.synthQueue = ⟨greetingText, some SpeechCallback.startListening⟩ :: rest →
        ∃ s', stepEv env s Event.utteranceEnd = some s' ∧ headListening s' = true) ∧
    (∀ (s s' : AppState) (e : Event), stepEv env s e = some s' →
        headListening s' = true → headListening s = true ∨ e = Event.utteranceEnd) := by
  refine ⟨detectTick_recSessions env, ?_, ?_, ?_⟩
  · intro s now hInt hv hm hsynth hgap
    unfold detectTick
    rw [if_neg (by simp [hInt]), if_pos (by simp [hv, hm, hgap])]
    simp [speakOpt, hsynth, synthSpeak, synthCancel]
  · intro s rest hrec hq
    refine ⟨runOnEnd env (some SpeechCallback.startListening)
        { s with synthQueue := rest }, by simp only [stepEv, hq], ?_⟩
    simp [runOnEnd, hrec, headListening, headListeningL]
  · intro s s' e hstep hl
    cases e with
    | tick now faces =>
      simp only [stepEv, Option.some.injEq] at hstep
      subst hstep
      left
      unfold headListening at hl ⊢
      rwa [detectTick_recSessions env s now faces] at hl
    | utteranceEnd => right; rfl
    | recResult transcript =>
      left
      cases hsess : s.recSessions with
      | nil => rw [stepEv, hsess] at hstep; simp at hstep
      | cons x rest =>
        cases x with
        | listening =>
          rw [stepEv, hsess] at hstep
          simp only [Option.some.injEq] at hstep
          subst hstep
          unfold headListening at hl
          rw [handleSpeechResult_recSessions] at hl
          simp [headListeningL] at hl
        | stopped => rw [stepEv, hsess] at hstep; simp at hstep
    | recError =>
      left
      cases hsess : s.recSessions with
      | nil => rw [stepEv, hsess] at hstep; simp at hstep
      | cons x rest =>
        cases x with
        | listening =>
          rw [stepEv, hsess] at hstep
          simp only [Option.some.injEq] at hstep
          subst hstep
          simp [headListening, headListeningL] at hl
        | stopped => rw [stepEv, hsess] at hstep; simp at hstep
    | captureClick =>
      left
      simp only [stepEv] at hstep
      by_cases hb : s.showButton = true
      · rw [if_pos hb] at hstep
        simp only [Option.some.injEq] at hstep
        subst hstep
        unfold headListening at hl ⊢
        rwa [handleCapture_recSessions] at hl
      · rw [if_neg hb] at hstep
        simp at hstep

/-- Witness for `c4_listen_only_after_greeting_end`: a greeting utterance
pending in `stuckState`-like conditions ends and recognition starts. -/
theorem c4_witness :
    (detectTick stdEnv initState 501 true).1.recSessions = initState.recSessions ∧
    (detectTick stdEnv initState 501 true).1.synthQueue =
      [⟨greetingText, some SpeechCallback.startListening⟩] ∧
    (∃ s', stepEv stdEnv (detectTick stdEnv initState 501 true).1
        Event.utteranceEnd = some s' ∧ headListening s' = true) :=
  have hc := c4_listen_only_after_greeting_end stdEnv
  ⟨hc.1 initState 501 true,
   hc.2.1 initState 501 (by decide) (by decide) (by decide) (by decide) (by decide),
   hc.2.2.1 (detectTick stdEnv initState 501 true).1 [] (by decide) (by decide)⟩

/-- Claim C5: at most one Speech Input session is active and at most one
Speech Output is outstanding at any time.  In every reachable state at most
one recognition session is listening and at most one utterance is queued;
`speak` always cancels the prior queue so the new queue is exactly the new
utterance; and the greeting completion handler — the only place a Speech
Input request is issued — aborts the current session first, so after it runs
at most one session is listening. -/
theorem c5_single_speech_session (env : Env) (s : AppState) (text : String)
    (cb : Option SpeechCallback) (h : Reachable env s) :
    (s.recSessions.count RecSess.listening ≤ 1 ∧ s.synthQueue.length ≤ 1) ∧
    (∀ s'', speakOpt env text cb s = some s'' → s''.synthQueue = [⟨text, cb⟩]) ∧
    (runOnEnd env (some SpeechCallback.startListening) s).recSessions.count
        RecSess.listening ≤ 1 := by
  obtain ⟨_, _, _, _, h5, h6, _, _⟩ := reachable_machineInv h
  refine ⟨⟨count_listening_le_one_of_tailStopped h6, h5⟩, ?_, ?_⟩
  · intro s'' hs
    unfold speakOpt at hs
    split at hs
    · simp only [Option.some.injEq] at hs
      subst hs
      simp [synthSpeak, synthCancel]
    · simp at hs
  · simp only [runOnEnd]
    split
    · rw [List.count_cons,
        count_listening_eq_zero_of_allStopped (tailStopped_abortHead h6)]
      simp
    · rw [count_listening_eq_zero_of_allStopped (tailStopped_abortHead h6)]
      simp

/-- Witness for `c5_single_speech_session` at the initial state. -/
theorem c5_witness :
    (initState.recSessions.count RecSess.listening ≤ 1 ∧
      initState.synthQueue.length ≤ 1) ∧
    ({ initState with synthQueue := [⟨"hello", none⟩] } : AppState).synthQueue =
      [⟨"hello", none⟩] ∧
    (runOnEnd stdEnv (some SpeechCallback.startListening) initState).recSessions.count
        RecSess.listening ≤ 1 :=
  have hc := c5_single_speech_session stdEnv initState "hello" none Reachable.init
  ⟨hc.1, hc.2.1 { initState with synthQueue := [⟨"hello", none⟩] } (by decide), hc.2.2⟩

/-- Claim C6: when the farewell Speech Output (the utterance whose
completion callback is `resumeDetection`) completes, the machine returns to
Idle with the capture control hidden, the pause flag and the person-detected
flag cleared, and detection resumed: a subsequent eligible tick with a
person present issues a locator call and starts a fresh conversation. -/
theorem c6_farewell_complete_resets (env : Env) (s : AppState) (u : Utterance)
    (rest : List Utterance) (hq : s.synthQueue = u :: rest)
    (hcb : u.onEnd = some SpeechCallback.resumeAfterFarewell) :
    ∃ s', stepEv env s Event.utteranceEnd = some s' ∧
      s'.step = Step.idle ∧ s'.isInteracting = false ∧ s'.showButton = false ∧
      s'.personDetected = false ∧
      (∀ now : Nat, env.videoOk = true → env.modelOk = true →
        DETECTION_INTERVAL < now - s'.lastDetection →
        (detectTick env s' now true).2 = true ∧
        (detectTick env s' now true).1.step = Step.waiting ∧
        (detectTick env s' now true).1.isInteracting = true) := by
  refine ⟨runOnEnd env u.onEnd { s with synthQueue := rest },
    by simp only [stepEv, hq], ?_⟩
  rw [hcb]
  simp only [runOnEnd, resumeDetection]
  refine ⟨by trivial, by trivial, by trivial, by trivial, ?_⟩
  intro now hv hm hgap
  refine ⟨(detectTick_called_iff env _ now true).mpr ⟨rfl, hv, hm, hgap⟩, ?_⟩
  unfold detectTick
  rw [if_neg (by simp), if_pos (by simp [hv, hm]; exact hgap)]
  by_cases hs : env.synthAvailable = true
  · simp [speakOpt, hs]
  · simp [speakOpt, hs]

/-- Witness for `c6_farewell_complete_resets` from `farewellState`. -/
theorem c6_witness :
    ∃ s', stepEv stdEnv farewellState Event.utteranceEnd = some s' ∧
      s'.step = Step.idle ∧ s'.isInteracting = false ∧ s'.showButton = false ∧
      s'.personDetected = false ∧
      (∀ now : Nat, stdEnv.videoOk = true → stdEnv.modelOk = true →
        DETECTION_INTERVAL < now - s'.lastDetection →
        (detectTick stdEnv s' now true).2 = true ∧
        (detectTick stdEnv s' now true).1.step = Step.waiting ∧
        (detectTick stdEnv s' now true).1.isInteracting = true) :=
  c6_farewell_complete_resets stdEnv farewellState
    ⟨thanksText, some SpeechCallback.resumeAfterFarewell⟩ [] rfl rfl

/-- Claim C7, counterexample: `handleCapture` is not guarded by the state.
Invoked in the initial Idle state it is not a no-op: it records a frame
snapshot, enqueues the thanks Speech Output and moves `step` to `"end"`. -/
theorem c7_capture_not_guarded_counterexample :
    initState.step = Step.idle ∧ handleCapture stdEnv initState ≠ initState ∧
      (handleCapture stdEnv initState).snapshotTaken = true ∧
      (handleCapture stdEnv initState).step = Step.endStep ∧
      (handleCapture stdEnv initState).synthQueue =
        [⟨thanksCaptureText, some SpeechCallback.resumeAfterFarewell⟩] := by
  refine ⟨by decide, by decide, by decide, by decide, by decide⟩

/-- Claim C7 (amended): the capture handler itself has no state guard (see
the counterexample), but a capture EVENT can only be delivered while the
capture control is rendered (`showButton`), and in every reachable state the
control is shown exactly in AwaitingCapture (`step = "decision"`); outside
AwaitingCapture the capture event is not deliverable at all. -/
theorem c7_capture_only_in_awaiting (env : Env) (s : AppState)
    (h : Reachable env s) :
    (s.showButton = true ↔ s.step = Step.decision) ∧
    (s.step ≠ Step.decision → stepEv env s Event.captureClick = none) := by
  obtain ⟨_, h2, _, _, _, _, _, _⟩ := reachable_machineInv h
  refine ⟨h2, ?_⟩
  intro hne
  have hb : s.showButton = false := by
    cases hbtn : s.showButton
    · rfl
    · exact absurd (h2.mp hbtn) hne
  simp [stepEv, hb]

/-- Witness for `c7_capture_only_in_awaiting` at the initial state. -/
theorem c7_witness :
    (initState.showButton = true ↔ initState.step = Step.decision) ∧
    (initState.step ≠ Step.decision →
      stepEv stdEnv initState Event.captureClick = none) :=
  c7_capture_only_in_awaiting stdEnv initState Reachable.init

/-- Claim C8 (the code does not recover): `speak` has no unsupported-device
fallback — its first statement dereferences `window.speechSynthesis`
unconditionally (App.jsx line 32) — so when speech output is unavailable no
completion continuation is ever registered.  Detecting a person in
`noSynthEnv` leaves the machine in `stuckState`: detection paused, step
`"waiting"`, empty speech queue; and `stuckState` is a fixpoint — every
event that can occur leaves it unchanged, so the Greeting → Listening and
Farewell → Idle transitions never fire and the machine stalls, contrary to
the claim that the turn completes immediately. -/
theorem c8_no_synth_stalls :
    (detectTick noSynthEnv initState 501 true).1 = stuckState ∧
    (detectTick noSynthEnv initState 501 true).2 = true ∧
    stuckState.synthQueue = [] ∧ stuckState.isInteracting = true ∧
    stuckState.step = Step.waiting ∧
    (∀ (e : Event) (s' : AppState),
      stepEv noSynthEnv stuckState e = some s' → s' = stuckState) := by
  refine ⟨by decide, by decide, rfl, rfl, rfl, ?_⟩
  intro e s' hstep
  cases e with
  | tick now faces =>
    simp only [stepEv, Option.some.injEq] at hstep
    rw [detectTick_interacting noSynthEnv stuckState now faces rfl] at hstep
    exact hstep.symm
  | utteranceEnd => simp [stepEv, stuckState] at hstep
  | recResult transcript => simp [stepEv, stuckState] at hstep
  | recError => simp [stepEv, stuckState] at hstep
  | captureClick => simp [stepEv, stuckState] at hstep

/-- Witness for `c8_no_synth_stalls`: the fixpoint clause applied to a
concrete tick event. -/
theorem c8_witness :
    (detectTick noSynthEnv initState 501 true).1 = stuckState ∧
      stuckState = stuckState :=
  ⟨c8_no_synth_stalls.1,
   c8_no_synth_stalls.2.2.2.2.2 (Event.tick 1200 true) stuckState (by decide)⟩

/-- Claim C9: detection is throttled to `DETECTION_INTERVAL`.  Along any
sequence of animation-frame ticks, consecutive Face Locator invocation
times (and the time of the first one relative to the initial
`lastDetection`) are more than `DETECTION_INTERVAL` apart; a tick on which
the locator fires has seen more than `DETECTION_INTERVAL` elapse; and the
call action trace never has two locator calls in flight at once, because
the loop re-arms only after the current call's `await` resolves. -/
theorem c9_throttle_and_no_overlap (env : Env) (s : AppState)
    (L : List (Nat × Bool)) (now : Nat) (faces : Bool) :
    List.Chain (fun a b => DETECTION_INTERVAL < b - a) s.lastDetection
        (runDetect env s L).2.1 ∧
    ((detectTick env s now faces).2 = true →
      DETECTION_INTERVAL < now - s.lastDetection) ∧
    maxInFlight 0 (runDetect env s L).2.2 ≤ 1 :=
  ⟨runDetect_chain env L s, detectTick_gap env s now faces,
   runDetect_maxInFlight env L s⟩

/-- Witness for `c9_throttle_and_no_overlap` on a concrete tick list. -/
theorem c9_witness :
    List.Chain (fun a b => DETECTION_INTERVAL < b - a) initState.lastDetection
        (runDetect stdEnv initState [(501, false), (600, false), (1200, true)]).2.1 ∧
      DETECTION_INTERVAL < 501 - initState.lastDetection ∧
      maxInFlight 0
        (runDetect stdEnv initState [(501, false), (600, false), (1200, true)]).2.2 ≤ 1 :=
  have hc := c9_throttle_and_no_overlap stdEnv initState
    [(501, false), (600, false), (1200, true)] 501 true
  ⟨hc.1, hc.2.1 (by decide), hc.2.2⟩

/-- Claim C10: the affirmative check takes precedence.  For every transcript
whose lower-cased form contains "yes" — even if it also contains "no" — the
recognition handler moves the machine to AwaitingCapture
(`step = "decision"`) and shows the button, because the `"yes"` substring
test on App.jsx line 119 is evaluated before the else branch. -/
theorem c10_yes_takes_precedence (env : Env) (s : AppState) (transcript : String)
    (hyes : includes (jsToLower transcript) "yes" = true)
    (_hno : includes (jsToLower transcript) "no" = true) :
    (handleSpeechResult env transcript s).step = Step.decision ∧
    (handleSpeechResult env transcript s).showButton = true := by
  constructor <;>
    by_cases hs : env.synthAvailable = true <;>
      simp [handleSpeechResult, hyes, speakOpt, hs]

/-- Witness for `c10_yes_takes_precedence` on "yes, no wait". -/
theorem c10_witness :
    includes (jsToLower "yes, no wait") "yes" = true ∧
    includes (jsToLower "yes, no wait") "no" = true ∧
    (handleSpeechResult stdEnv "yes, no wait" initState).step = Step.decision ∧
    (handleSpeechResult stdEnv "yes, no wait" initState).showButton = true :=
  ⟨by decide, by decide,
   (c10_yes_takes_precedence stdEnv initState "yes, no wait"
      (by decide) (by decide)).1,
   (c10_yes_takes_precedence stdEnv initState "yes, no wait"
      (by decide) (by decide)).2⟩
